import Mathlib

/-!
Verification of the diff-rendering and structural-equality subsystem of the
flimzy/testify repository (packages `assert` and `require`).

The repository contains two near-duplicate revisions of the core `assert`
logic:
  * `assert/assert.go` (namespace `AssertRev` below): `interfaceDiff` applies
    the `cap=`/`0x` normalization regexes, and `diff` does not normalize
    trailing line terminators;
  * the larger revision (namespace `Assert` below, from the file carrying
    `DeepEqualJSON`, `MarshalsToJSON`, `LinesEqual` and `HTMLEqual`):
    `diff` appends a missing trailing line terminator, and the normalization
    regex applications inside `interfaceDiff` are commented out.
The `require` package (namespace `Require` below) wraps each assert-form
check and calls the sink's FailNow operation when the check returns false.

External collaborators are modelled shallowly and explicitly:
  * the failure sink (`TestingT`) is modelled by a sink identifier `Nat`;
    calls to its `Errorf` operation are recorded as a list of `Event`s, and a
    call to `FailNow` is recorded as the outcome `Outcome.halted`;
  * `reflect.DeepEqual` is modelled on the value universe `GoVal` by `goEq`
    after `canon` (maps compared without regard to pair order, pointers
    followed, channels compared by identity);
  * `encoding/json` marshaling is modelled by `marshalVal` (sorted object
    keys, channels unmarshalable; the cosmetic indentation of
    `MarshalIndent` and `\u`/HTML escaping are omitted, numbers are modelled
    as integers) and unmarshaling by the executable parser `parseJSON`
    (decoded objects are kept in key-sorted canonical form because the
    decoded Go value is an unordered map);
  * `go-spew`'s `Sdump` is modelled by `sdump`: a deterministic, sorted-keys
    rendering with a trailing line terminator, pointer addresses rendered as
    a parenthesized `0x` annotation of ten lowercase hex digits and slice
    capacity rendered as a `cap=N)` annotation;
  * `difflib.GetUnifiedDiffString` is modelled at the level the claims need:
    it returns the empty string exactly when the two line sequences agree and
    otherwise a nonempty rendering carrying the configured labels;
  * `x/net/html` parsing is modelled as a total injective constructor
    (`html.Parse` on an in-memory reader does not fail), and goquery
    selections carry the result of their `OuterHtml` call.
-/

/-! ## Failure sink events and outcomes -/

/-- One call to the failure sink's Errorf operation. `fail` records a plain
failure report, `failDiff` a report carrying a nonempty diff block, and
`invalidDoc` the direct Errorf call made by `HTMLEqual` on a normalization
error. Caller-trace and user-message formatting (done by utility helpers
that only render text) is abstracted away. -/
inductive Event where
  | fail (sink : Nat) (desc : String)
  | failDiff (sink : Nat) (desc : String) (diffText : String)
  | invalidDoc (sink : Nat) (msg : String)
deriving DecidableEq, Repr

/-- Result of a check that may halt the test via the sink's FailNow
operation: either a normal return carrying a value, or a halt attributed to
the sink that was told to FailNow. -/
inductive Outcome (α : Type) where
  | ret (a : α)
  | halted (sink : Nat)
deriving DecidableEq, Repr

/-- Fail reports a failure through the sink and returns false
(assert.go lines 68-89 / testify's assert.Fail in the other revisions). -/
def Fail (t : Nat) (failureMessage : String) : Bool × List Event :=
  (false, [Event.fail t failureMessage])

/-- FailDiff reports a failure through the sink, including a contextual diff;
with an empty diff it falls back to Fail (both revisions, same structure). -/
def FailDiff (t : Nat) (failureMessage diffText : String) : Bool × List Event :=
  if diffText = "" then Fail t failureMessage
  else (false, [Event.failDiff t failureMessage diffText])

/-! ## Text differ -/

/-- Go strings.SplitAfter on a single-character separator: split after each
occurrence, retaining the separator; the final element is the remainder. -/
def splitAfterChar (sep : Char) : List Char → List (List Char)
  | [] => [[]]
  | c :: rest =>
    if c = sep then [c] :: splitAfterChar sep rest
    else
      match splitAfterChar sep rest with
      | [] => [[c]]
      | l :: ls => (c :: l) :: ls

/-- strings.SplitAfter(s, "\n"). -/
def splitAfter (s : String) : List String :=
  (splitAfterChar '\n' s.data).map String.mk

/-- strings.HasSuffix(s, "\n"): the suffix is a single character, so this is
a last-character test. -/
def hasSuffixNl (s : String) : Bool := s.data.getLast? = some '\n'

/-- difflib.UnifiedDiff configuration record, as filled in by `diff`. -/
structure UnifiedDiff where
  A : List String
  FromFile : String
  B : List String
  ToFile : String
  Context : Nat
deriving DecidableEq, Repr

/-- Model of the external difflib.GetUnifiedDiffString: the empty string
exactly when the two line sequences are equal (no hunks), otherwise a
nonempty unified-diff rendering carrying the configured labels. The hunk
construction itself is external to this repository and abstracted. -/
def getUnifiedDiffString (u : UnifiedDiff) : String :=
  if u.A = u.B then ""
  else "--- " ++ u.FromFile ++ "\n+++ " ++ u.ToFile ++ "\n@@ context " ++
    toString u.Context ++ " @@\n" ++
    String.join (u.A.map (fun l => "-" ++ l)) ++
    String.join (u.B.map (fun l => "+" ++ l))

/-! ## Dump normalization (capRE / addRE of assert/assert.go) -/

/-- Try to match the regular expression `cap=[0-9]+\)` at the head of the
list; on success return the remainder after the match. The digit run is
maximal, which coincides with the regex engine's leftmost-greedy match since
a shorter digit run is followed by a digit, not by the required `)`. -/
def matchCapAfter (l : List Char) : Option (List Char) :=
  match l with
  | 'c' :: 'a' :: 'p' :: '=' :: rest =>
    match rest.dropWhile Char.isDigit with
    | ')' :: rem => if (rest.takeWhile Char.isDigit).isEmpty then none else some rem
    | _ => none
  | _ => none

/-- Replace every non-overlapping leftmost match of `cap=[0-9]+\)` by
`cap=X` (capRE.ReplaceAllString with capRepl). Fueled by the input length:
every step consumes at least one character. -/
def capLoop : Nat → List Char → List Char
  | 0, l => l
  | _ + 1, [] => []
  | fuel + 1, c :: rest =>
    match matchCapAfter (c :: rest) with
    | some rem => 'c' :: 'a' :: 'p' :: '=' :: 'X' :: capLoop fuel rem
    | none => c :: capLoop fuel rest

def capReplaceAll (l : List Char) : List Char := capLoop (l.length + 1) l

/-- Lowercase hex digit class `[0-9a-f]`. -/
def isLowerHex (c : Char) : Bool := c.isDigit || ('a' ≤ c && c ≤ 'f')

/-- Try to match `\(0x[0-9a-f]{6,10}\)` at the head of the list. The regex
engine matches greedily and backtracks from ten digits down to six; every
shorter candidate is followed by a further hex digit, so a match exists
exactly when the maximal hex run after `(0x` has length six to ten and is
followed by `)`. -/
def matchAddrAfter (l : List Char) : Option (List Char) :=
  match l with
  | '(' :: '0' :: 'x' :: rest =>
    let hs := rest.takeWhile isLowerHex
    if 6 ≤ hs.length && hs.length ≤ 10 then
      match rest.dropWhile isLowerHex with
      | ')' :: rem => some rem
      | _ => none
    else none
  | _ => none

/-- Replace every non-overlapping leftmost match of `\(0x[0-9a-f]{6,10}\)`
by `(0xXXXXXXXXXX)` (addRE.ReplaceAllString with addRepl). -/
def addrLoop : Nat → List Char → List Char
  | 0, l => l
  | _ + 1, [] => []
  | fuel + 1, c :: rest =>
    match matchAddrAfter (c :: rest) with
    | some rem => ("(0xXXXXXXXXXX)".data) ++ addrLoop fuel rem
    | none => c :: addrLoop fuel rest

def addrReplaceAll (l : List Char) : List Char := addrLoop (l.length + 1) l

/-- The two normalization passes of assert/assert.go's interfaceDiff, in
source order: capRE first, then addRE. -/
def normalizeDump (s : String) : String :=
  String.mk (addrReplaceAll (capReplaceAll s.data))

/-! ## The value universe and reflect.DeepEqual -/

/-- Universe of Go values handed to the checks: JSON-representable data
(null, booleans, integers, strings, slices, string-keyed maps), pointers
(an address plus the pointee) and channels (compared by identity, not
marshalable to JSON). A `map` is an unordered Go map; the list records one
insertion order of its pairs. -/
inductive GoVal where
  | null
  | bool (b : Bool)
  | int (n : Int)
  | str (s : String)
  | arr (xs : List GoVal)
  | map (pairs : List (String × GoVal))
  | ptr (addr : Nat) (v : GoVal)
  | chanV (id : Nat)
deriving Repr

/-- Byte-order comparison of character lists (Go compares strings
bytewise; all strings used here are ASCII, where bytewise and
codepoint-wise orders agree). -/
def charListLe : List Char → List Char → Bool
  | [], _ => true
  | _ :: _, [] => false
  | a :: as, b :: bs =>
    if a.toNat < b.toNat then true
    else if b.toNat < a.toNat then false
    else charListLe as bs

/-- Go string order `a <= b`. -/
def strLe (a b : String) : Bool := charListLe a.data b.data

/-- Key order on (key, value) pairs, used wherever Go sorts map keys. -/
def keyLe {β : Type} (p q : String × β) : Prop := strLe p.1 q.1 = true

instance {β : Type} : DecidableRel (@keyLe β) := fun p q =>
  inferInstanceAs (Decidable (strLe p.1 q.1 = true))

/-- Sort a pair list by key (sort.Strings over the map keys). -/
def sortK {β : Type} (l : List (String × β)) : List (String × β) :=
  l.insertionSort keyLe

mutual
/-- Canonical form underlying the model of reflect.DeepEqual: map pairs
sorted by key (a Go map is unordered), pointer addresses erased (pointers
are deeply equal when their pointees are), everything else untouched. -/
def canon : GoVal → GoVal
  | .map ps => .map (sortK (canonPairs ps))
  | .arr xs => .arr (canonList xs)
  | .ptr _ v => .ptr 0 (canon v)
  | v => v
def canonList : List GoVal → List GoVal
  | [] => []
  | v :: vs => canon v :: canonList vs
def canonPairs : List (String × GoVal) → List (String × GoVal)
  | [] => []
  | (k, v) :: ps => (k, canon v) :: canonPairs ps
end

mutual
/-- Structural equality test on `GoVal` (used on canonical forms). -/
def goEq : GoVal → GoVal → Bool
  | .null, .null => true
  | .bool a, .bool b => a == b
  | .int a, .int b => a == b
  | .str a, .str b => a == b
  | .arr xs, .arr ys => goEqList xs ys
  | .map ps, .map qs => goEqPairs ps qs
  | .ptr a v, .ptr b w => a == b && goEq v w
  | .chanV a, .chanV b => a == b
  | _, _ => false
def goEqList : List GoVal → List GoVal → Bool
  | [], [] => true
  | x :: xs, y :: ys => goEq x y && goEqList xs ys
  | _, _ => false
def goEqPairs : List (String × GoVal) → List (String × GoVal) → Bool
  | [], [] => true
  | (k, v) :: ps, (k2, v2) :: qs => k == k2 && goEq v v2 && goEqPairs ps qs
  | _, _ => false
end

/-- Model of reflect.DeepEqual on the `GoVal` universe: structural equality
of canonical forms, hence insensitive to map insertion order and pointer
identity, and channel values compared by identity. -/
def deepEqualGo (x y : GoVal) : Bool := goEq (canon x) (canon y)

/-! ## Model of go-spew's Sdump (Indent two spaces, DisableMethods,
SortKeys) -/

/-- Ten lowercase hex digits for a modelled pointer address. -/
def hex10 (n : Nat) : String :=
  let ds := Nat.toDigits 16 (n % (16 ^ 10))
  String.mk (List.replicate (10 - ds.length) '0' ++ ds)

mutual
/-- Deterministic rendering of one value in the style of spew: types
annotated, slice length and capacity annotated, map keys sorted
(SortKeys), pointers shown as a parenthesized hex address followed by the
pointee. -/
def sdumpVal : GoVal → String
  | .null => "(interface \x7b\x7d) <nil>"
  | .bool b => "(bool) " ++ (if b then "true" else "false")
  | .int n => "(int) " ++ toString n
  | .str s => "(string) \"" ++ s ++ "\""
  | .arr xs =>
    "([]interface \x7b\x7d) (len=" ++ toString xs.length ++ " cap=" ++
      toString xs.length ++ ") \x7b" ++
      String.intercalate ", " (sdumpList xs) ++ "\x7d"
  | .map ps =>
    "(map[string]interface \x7b\x7d) (len=" ++ toString ps.length ++ ") \x7b" ++
      String.intercalate ", "
        ((sortK (sdumpPairs ps)).map
          (fun p => "(string) \"" ++ p.1 ++ "\": " ++ p.2)) ++ "\x7d"
  | .ptr a v => "(*)(0x" ++ hex10 a ++ ")(" ++ sdumpVal v ++ ")"
  | .chanV id => "(chan int) 0x" ++ hex10 id
def sdumpList : List GoVal → List String
  | [] => []
  | v :: vs => sdumpVal v :: sdumpList vs
def sdumpPairs : List (String × GoVal) → List (String × String)
  | [] => []
  | (k, v) :: ps => (k, sdumpVal v) :: sdumpPairs ps
end

/-- spew.ConfigState.Sdump: the rendering of the value, terminated by a
line terminator. -/
def sdump (v : GoVal) : String := sdumpVal v ++ "\n"

/-! ## Model of encoding/json -/

/-- Generic decoded JSON value (the result of json.Unmarshal into an empty
interface). Object pair lists are kept sorted by key with later duplicate
keys winning, the canonical representation of the unordered decoded Go map;
numbers are modelled as integers. -/
inductive Jv where
  | null
  | bool (b : Bool)
  | num (n : Int)
  | str (s : String)
  | arr (xs : List Jv)
  | obj (pairs : List (String × Jv))
deriving Repr

mutual
/-- Structural equality test on decoded JSON values. On the canonical
(key-sorted) object representation this models reflect.DeepEqual on
decoded values. -/
def jvEq : Jv → Jv → Bool
  | .null, .null => true
  | .bool a, .bool b => a == b
  | .num a, .num b => a == b
  | .str a, .str b => a == b
  | .arr xs, .arr ys => jvEqList xs ys
  | .obj ps, .obj qs => jvEqPairs ps qs
  | _, _ => false
def jvEqList : List Jv → List Jv → Bool
  | [], [] => true
  | x :: xs, y :: ys => jvEq x y && jvEqList xs ys
  | _, _ => false
def jvEqPairs : List (String × Jv) → List (String × Jv) → Bool
  | [], [] => true
  | (k, v) :: ps, (k2, v2) :: qs => k == k2 && jvEq v v2 && jvEqPairs ps qs
  | _, _ => false
end

/-- A successfully decoded JSON null becomes the nil interface value in Go,
indistinguishable from a variable json.Unmarshal never wrote to; both are
therefore `none` here, and reflect.DeepEqual on two such variables is
`optJvEq`. -/
def jvVar : Jv → Option Jv
  | .null => none
  | v => some v

/-- reflect.DeepEqual on the decoded interface variables (nil iff `none`). -/
def optJvEq : Option Jv → Option Jv → Bool
  | none, none => true
  | some x, some y => jvEq x y
  | _, _ => false

/-! ### The JSON parser (json.Unmarshal) -/

def isWsChar (c : Char) : Bool := c = ' ' || c = '\n' || c = '\t' || c = '\r'

def skipWs : List Char → List Char
  | [] => []
  | c :: cs => if isWsChar c then skipWs cs else c :: cs

/-- Body of a JSON string literal after the opening quote; returns the
characters and the remainder after the closing quote. The common escapes
are supported. -/
def strBody : List Char → Option (List Char × List Char)
  | [] => none
  | '"' :: rest => some ([], rest)
  | '\\' :: e :: rest =>
    (match e with
      | '"' => some '"'
      | '\\' => some '\\'
      | '/' => some '/'
      | 'n' => some '\n'
      | 't' => some '\t'
      | 'r' => some '\r'
      | _ => none).bind fun c =>
      (strBody rest).map fun (p : List Char × List Char) => (c :: p.1, p.2)
  | c :: rest => (strBody rest).map fun p => (c :: p.1, p.2)

/-- Digit run to a natural number; fails on an empty run. -/
def parseNatNum (l : List Char) : Option (Nat × List Char) :=
  let ds := l.takeWhile Char.isDigit
  if ds.isEmpty then none
  else some (ds.foldl (fun acc c => 10 * acc + (c.toNat - 48)) 0, l.dropWhile Char.isDigit)

/-- Keep the last occurrence of every key, Go's behaviour for duplicate
object keys: a pair is dropped when a later pair carries the same key. -/
def dedupLast {β : Type} : List (String × β) → List (String × β)
  | [] => []
  | p :: ps =>
    if (ps.map Prod.fst).contains p.1 then dedupLast ps else p :: dedupLast ps

/-- Canonical decoded object: duplicates resolved (last wins), then pairs
sorted by key, modelling the unordered decoded Go map. -/
def canonObj (ps : List (String × Jv)) : List (String × Jv) :=
  sortK (dedupLast ps)

mutual
/-- Recursive-descent JSON parser, fueled (each call consumes input). -/
def parseJv : Nat → List Char → Option (Jv × List Char)
  | 0, _ => none
  | fuel + 1, l =>
    match skipWs l with
    | 'n' :: 'u' :: 'l' :: 'l' :: rest => some (.null, rest)
    | 't' :: 'r' :: 'u' :: 'e' :: rest => some (.bool true, rest)
    | 'f' :: 'a' :: 'l' :: 's' :: 'e' :: rest => some (.bool false, rest)
    | '"' :: rest => (strBody rest).map fun p => (.str (String.mk p.1), p.2)
    | '[' :: rest =>
      (match skipWs rest with
        | ']' :: r => some (.arr [], r)
        | _ => parseArrTail fuel rest [])
    | '\x7b' :: rest =>
      (match skipWs rest with
        | '\x7d' :: r => some (.obj [], r)
        | _ => parseObjTail fuel rest [])
    | '-' :: rest => (parseNatNum rest).map fun p => (.num (-(p.1 : Int)), p.2)
    | c :: rest =>
      if c.isDigit then (parseNatNum (c :: rest)).map fun p => (.num (p.1 : Int), p.2)
      else none
    | [] => none
/-- One array item, then either a comma and further items or the closing
bracket. -/
def parseArrTail : Nat → List Char → List Jv → Option (Jv × List Char)
  | 0, _, _ => none
  | fuel + 1, l, acc =>
    (parseJv fuel l).bind fun p =>
      match skipWs p.2 with
      | ',' :: r => parseArrTail fuel r (acc ++ [p.1])
      | ']' :: r => some (.arr (acc ++ [p.1]), r)
      | _ => none
/-- One object member, then either a comma and further members or the
closing brace. -/
def parseObjTail : Nat → List Char → List (String × Jv) → Option (Jv × List Char)
  | 0, _, _ => none
  | fuel + 1, l, acc =>
    match skipWs l with
    | '"' :: rest =>
      (strBody rest).bind fun kp =>
        match skipWs kp.2 with
        | ':' :: r =>
          (parseJv fuel r).bind fun p =>
            match skipWs p.2 with
            | ',' :: r2 => parseObjTail fuel r2 (acc ++ [(String.mk kp.1, p.1)])
            | '\x7d' :: r2 => some (.obj (canonObj (acc ++ [(String.mk kp.1, p.1)])), r2)
            | _ => none
        | _ => none
    | _ => none
end

/-- json.Unmarshal of a byte string into an empty interface: parse one JSON
value and require only whitespace afterwards; `none` is a decoding error. -/
def parseJSON (s : String) : Option Jv :=
  match parseJv (2 * s.length + 8) s.data with
  | some (v, rest) => if (skipWs rest).isEmpty then some v else none
  | none => none

/-- Decoded interface variable after an ignored-error json.Unmarshal call:
`none` both on a decode error (the variable keeps its nil zero value) and
on a decoded null. -/
def decodeVar (s : String) : Option Jv := (parseJSON s).bind jvVar

/-! ### The JSON encoder (json.MarshalIndent) -/

/-- JSON string escaping for the characters exercised here. -/
def jsonEscapeChar : Char → String
  | '"' => "\\\""
  | '\\' => "\\\\"
  | '\n' => "\\n"
  | '\t' => "\\t"
  | '\r' => "\\r"
  | c => String.mk [c]

def jsonQuote (s : String) : String :=
  "\"" ++ String.join (s.data.map jsonEscapeChar) ++ "\""

mutual
/-- json.Marshal on the `GoVal` universe: `none` is a marshaling error
(a channel somewhere in the value); map keys are emitted in sorted order,
as encoding/json does. The pretty-printing whitespace of MarshalIndent is
cosmetic and omitted. -/
def marshalVal : GoVal → Option String
  | .null => some "null"
  | .bool b => some (if b then "true" else "false")
  | .int n => some (toString n)
  | .str s => some (jsonQuote s)
  | .arr xs =>
    let parts := marshalListEnc xs
    if parts.all Option.isSome then
      some ("[" ++ String.intercalate "," (parts.map (fun o => o.getD "")) ++ "]")
    else none
  | .map ps =>
    let enc := sortK (marshalPairsEnc ps)
    if enc.all (fun p => p.2.isSome) then
      some ("\x7b" ++ String.intercalate ","
        (enc.map (fun p => jsonQuote p.1 ++ ":" ++ p.2.getD "")) ++ "\x7d")
    else none
  | .ptr _ v => marshalVal v
  | .chanV _ => none
def marshalListEnc : List GoVal → List (Option String)
  | [] => []
  | v :: vs => marshalVal v :: marshalListEnc vs
def marshalPairsEnc : List (String × GoVal) → List (String × Option String)
  | [] => []
  | (k, v) :: ps => (k, marshalVal v) :: marshalPairsEnc ps
end

/-- The error text of encoding/json for the one unmarshalable kind in the
model. -/
def jsonChanErr : String := "json: unsupported type: chan int"

/-! ## Model of x/net/html and goquery inputs -/

/-- Parsed HTML document tree handle. The tree structure is opaque to every
claim; html.Parse is modelled as the injective constructor and html.Render
as its inverse. -/
inductive HTree where
  | mk (src : String)
deriving DecidableEq, Repr

/-- html.Parse on an in-memory reader: total (the parser is error-tolerant
and the reader cannot fail). -/
def parseHTML (s : String) : HTree := HTree.mk s

/-- html.Render of a (possibly nil) document-tree pointer. The nil case is
never reached by the claims proved here (rendering only happens after the
two non-nil-or-equal trees compare unequal). -/
def renderOpt : Option HTree → String
  | some (HTree.mk s) => s
  | none => ""

/-- Result of goquery.OuterHtml on a selection. -/
inductive SelRes where
  | selOk (outerHtml : String)
  | selErr (msg : String)
deriving DecidableEq, Repr

/-- The dynamic value handed to HTMLEqual: the four accepted kinds
(markup string, byte sequence, document-tree pointer including a typed nil,
selection), the untyped nil interface, and any other dynamic type with its
fmt %T name. -/
inductive HTMLInput where
  | nodePtr (n : Option HTree)
  | str (s : String)
  | bytes (b : String)
  | selection (sel : SelRes)
  | nilInterface
  | otherKind (typeName : String)
deriving DecidableEq, Repr

/-- Result of toHTMLNode: a (possibly nil) tree pointer or an error. -/
inductive NodeRes where
  | ok (n : Option HTree)
  | err (msg : String)
deriving DecidableEq, Repr

/-! ## Package assert, larger revision (with JSON, lines and HTML checks;
the normalization regex applications are commented out in this revision
and diff appends missing trailing line terminators) -/

namespace Assert

/-- diff's UnifiedDiff configuration: append a single trailing line
terminator to each input that lacks one, split retaining terminators,
2 lines of context, sides labelled expected/actual. -/
def diffUdiff (expected actual : String) : UnifiedDiff :=
  let expected := if hasSuffixNl expected then expected else expected ++ "\n"
  let actual := if hasSuffixNl actual then actual else actual ++ "\n"
  { A := splitAfter expected
    FromFile := "expected"
    B := splitAfter actual
    ToFile := "actual"
    Context := 2 }

def diff (expected actual : String) : String :=
  getUnifiedDiffString (diffUdiff expected actual)

/-- The two texts interfaceDiff hands to the differ in this revision: the
raw spew dumps (the capRE/addRE normalization lines are commented out). -/
def interfaceDiffTexts (expected actual : GoVal) : String × String :=
  (sdump expected, sdump actual)

def interfaceDiff (expected actual : GoVal) : String :=
  diff (interfaceDiffTexts expected actual).1 (interfaceDiffTexts expected actual).2

/-- DeepEqual asserts that two objects are deeply equal. -/
def DeepEqual (t : Nat) (expected actual : GoVal) : Bool × List Event :=
  if deepEqualGo expected actual then (true, [])
  else FailDiff t "Structs differ" (interfaceDiff expected actual)

/-- marshalJSON: on a marshaling error, report the failure (embedding the
error text) and fall through with the nil output. -/
def marshalJSON (t : Nat) (i : GoVal) : String × List Event :=
  match marshalVal i with
  | some s => (s, [])
  | none => ("", (Fail t ("Error marshaling JSON: " ++ jsonChanErr ++ "\n")).2)

/-- DeepEqualJSON marshals both interfaces to JSON, unmarshals (errors
ignored), deep-compares the decoded values, and on mismatch diffs the two
JSON texts. -/
def DeepEqualJSON (t : Nat) (expected actual : GoVal) : Bool × List Event :=
  let m1 := marshalJSON t expected
  let m2 := marshalJSON t actual
  let e := decodeVar m1.1
  let a := decodeVar m2.1
  if optJvEq e a then (true, m1.2 ++ m2.2)
  else
    let f := FailDiff t "JSON representations differ" (diff m1.1 m2.1)
    (f.1, m1.2 ++ m2.2 ++ f.2)

/-- MarshalsToJSON asserts that the actual interface marshals to the
expected JSON document. A literal expected document that fails to parse is
a distinct failure. -/
def MarshalsToJSON (t : Nat) (expected : String) (actual : GoVal) : Bool × List Event :=
  let m := marshalJSON t actual
  match parseJSON expected with
  | none =>
    let f := Fail t "Error unmarshaling expected JSON string"
    (f.1, m.2 ++ f.2)
  | some ev =>
    let e := jvVar ev
    let a := decodeVar m.1
    if optJvEq e a then (true, m.2)
    else
      let f := FailDiff t "JSON representations differ" (diff expected m.1)
      (f.1, m.2 ++ f.2)

/-- LinesEqual asserts string equality, with a line diff on mismatch. -/
def LinesEqual (t : Nat) (expected actual : String) : Bool × List Event :=
  if expected = actual then (true, [])
  else FailDiff t "Strings differ" (diff expected actual)

/-- toHTMLNode: the exhaustive dispatch over the four accepted input kinds;
anything else is an unknown-type error. A typed nil tree pointer matches
the pointer case and is returned unchanged. -/
def toHTMLNode : HTMLInput → NodeRes
  | .nodePtr n => .ok n
  | .str s => .ok (some (parseHTML s))
  | .bytes b => .ok (some (parseHTML b))
  | .selection (.selOk s) => .ok (some (parseHTML s))
  | .selection (.selErr m) => .err ("failed to get outer html: " ++ m)
  | .nilInterface => .err "unknown type: <nil>"
  | .otherKind ty => .err ("unknown type: " ++ ty)

/-- HTMLEqual asserts that the two arguments represent equivalent HTML. A
normalization error on either side reports through Errorf and calls
FailNow. -/
def HTMLEqual (t : Nat) (expected actual : HTMLInput) : Outcome Bool × List Event :=
  match toHTMLNode expected with
  | .err m => (.halted t, [Event.invalidDoc t ("invalid expected document: " ++ m)])
  | .ok expDoc =>
    match toHTMLNode actual with
    | .err m => (.halted t, [Event.invalidDoc t ("invalid actual document: " ++ m)])
    | .ok actDoc =>
      if expDoc = actDoc then (.ret true, [])
      else
        let f := FailDiff t "HTML differs" (diff (renderOpt expDoc) (renderOpt actDoc))
        (.ret f.1, f.2)

/-- Assertions provides assertion methods around the stored failure sink. -/
structure Assertions where
  t : Nat

def Assertions.DeepEqual (a : Assertions) (expected actual : GoVal) : Bool × List Event :=
  Assert.DeepEqual a.t expected actual

def Assertions.DeepEqualJSON (a : Assertions) (expected actual : GoVal) : Bool × List Event :=
  Assert.DeepEqualJSON a.t expected actual

def Assertions.MarshalsToJSON (a : Assertions) (expected : String) (actual : GoVal) :
    Bool × List Event :=
  Assert.MarshalsToJSON a.t expected actual

def Assertions.LinesEqual (a : Assertions) (expected actual : String) : Bool × List Event :=
  Assert.LinesEqual a.t expected actual

end Assert

/-! ## Package assert, assert/assert.go revision (normalization regexes
active; diff does not append trailing line terminators) -/

namespace AssertRev

/-- diff's UnifiedDiff configuration in this revision: the inputs are split
as they are, with no trailing-terminator normalization. -/
def diffUdiff (expected actual : String) : UnifiedDiff :=
  { A := splitAfter expected
    FromFile := "expected"
    B := splitAfter actual
    ToFile := "actual"
    Context := 2 }

def diff (expected actual : String) : String :=
  getUnifiedDiffString (diffUdiff expected actual)

/-- The two texts interfaceDiff hands to the differ in this revision: the
spew dumps after the capRE and addRE normalization passes. -/
def interfaceDiffTexts (expected actual : GoVal) : String × String :=
  (normalizeDump (sdump expected), normalizeDump (sdump actual))

def interfaceDiff (expected actual : GoVal) : String :=
  diff (interfaceDiffTexts expected actual).1 (interfaceDiffTexts expected actual).2

/-- DeepEqual asserts that two objects are deeply equal. -/
def DeepEqual (t : Nat) (expected actual : GoVal) : Bool × List Event :=
  if deepEqualGo expected actual then (true, [])
  else FailDiff t "Structs differ" (interfaceDiff expected actual)

/-- Assertions wrapper of this revision. Its DeepEqual method takes an
extra sink argument but forwards the stored sink, as in the source. -/
structure Assertions where
  t : Nat

def Assertions.DeepEqual (a : Assertions) (_tArg : Nat) (expected actual : GoVal) :
    Bool × List Event :=
  AssertRev.DeepEqual a.t expected actual

end AssertRev

/-! ## Package require -/

namespace Require

/-- require.DeepEqual: run the assert-form check; on false, FailNow. -/
def DeepEqual (t : Nat) (expected actual : GoVal) : Outcome Unit × List Event :=
  let r := Assert.DeepEqual t expected actual
  if r.1 then (.ret (), r.2) else (.halted t, r.2)

def DeepEqualJSON (t : Nat) (expected actual : GoVal) : Outcome Unit × List Event :=
  let r := Assert.DeepEqualJSON t expected actual
  if r.1 then (.ret (), r.2) else (.halted t, r.2)

def MarshalsToJSON (t : Nat) (expected : String) (actual : GoVal) :
    Outcome Unit × List Event :=
  let r := Assert.MarshalsToJSON t expected actual
  if r.1 then (.ret (), r.2) else (.halted t, r.2)

def LinesEqual (t : Nat) (expected actual : String) : Outcome Unit × List Event :=
  let r := Assert.LinesEqual t expected actual
  if r.1 then (.ret (), r.2) else (.halted t, r.2)

/-- require.HTMLEqual: the underlying check can itself FailNow on a
normalization error; a false return FailNows here. -/
def HTMLEqual (t : Nat) (expected actual : HTMLInput) : Outcome Unit × List Event :=
  match Assert.HTMLEqual t expected actual with
  | (.ret b, evs) => if b then (.ret (), evs) else (.halted t, evs)
  | (.halted s, evs) => (.halted s, evs)

/-- Assertions provides require methods around the stored failure sink. -/
structure Assertions where
  t : Nat

def Assertions.DeepEqual (a : Assertions) (expected actual : GoVal) :
    Outcome Unit × List Event :=
  Require.DeepEqual a.t expected actual

def Assertions.DeepEqualJSON (a : Assertions) (expected actual : GoVal) :
    Outcome Unit × List Event :=
  Require.DeepEqualJSON a.t expected actual

def Assertions.MarshalsToJSON (a : Assertions) (expected : String) (actual : GoVal) :
    Outcome Unit × List Event :=
  Require.MarshalsToJSON a.t expected actual

def Assertions.LinesEqual (a : Assertions) (expected actual : String) :
    Outcome Unit × List Event :=
  Require.LinesEqual a.t expected actual

def Assertions.HTMLEqual (a : Assertions) (expected actual : HTMLInput) :
    Outcome Unit × List Event :=
  Require.HTMLEqual a.t expected actual

end Require

/-! ## Order instances for the key relation -/

instance {β : Type} : IsTrans (String × β) keyLe :=
  ⟨by
    have H : ∀ (x y z : List Char), charListLe x y = true → charListLe y z = true →
        charListLe x z = true := by
      intro x
      induction x with
      | nil => intro y z _ _; rfl
      | cons a as ih =>
        intro y z hab hbc
        cases y with
        | nil => simp [charListLe] at hab
        | cons b bs =>
          cases z with
          | nil => simp [charListLe] at hbc
          | cons c cs =>
            simp only [charListLe] at hab hbc ⊢
            rcases Nat.lt_trichotomy a.toNat b.toNat with h1 | h1 | h1
            · rcases Nat.lt_trichotomy b.toNat c.toNat with h2 | h2 | h2
              · simp [show a.toNat < c.toNat from Nat.lt_trans h1 h2]
              · simp [show a.toNat < c.toNat from h2 ▸ h1]
              · simp only [if_neg (Nat.lt_asymm h2), if_pos h2] at hbc
                exact Bool.noConfusion hbc
            · rcases Nat.lt_trichotomy b.toNat c.toNat with h2 | h2 | h2
              · simp [show a.toNat < c.toNat from h1 ▸ h2]
              · simp only [if_neg (by omega : ¬ a.toNat < b.toNat),
                  if_neg (by omega : ¬ b.toNat < a.toNat)] at hab
                simp only [if_neg (by omega : ¬ b.toNat < c.toNat),
                  if_neg (by omega : ¬ c.toNat < b.toNat)] at hbc
                simp only [if_neg (by omega : ¬ a.toNat < c.toNat),
                  if_neg (by omega : ¬ c.toNat < a.toNat)]
                exact ih bs cs hab hbc
              · simp only [if_neg (Nat.lt_asymm h2), if_pos h2] at hbc
                exact Bool.noConfusion hbc
            · simp only [if_neg (Nat.lt_asymm h1), if_pos h1] at hab
              exact Bool.noConfusion hab
    exact fun a b c h1 h2 => H a.1.data b.1.data c.1.data h1 h2⟩

instance {β : Type} : IsTotal (String × β) keyLe :=
  ⟨by
    have H : ∀ (x y : List Char), charListLe x y = true ∨ charListLe y x = true := by
      intro x
      induction x with
      | nil => intro y; left; rfl
      | cons a as ih =>
        intro y
        cases y with
        | nil => right; rfl
        | cons b bs =>
          simp only [charListLe]
          rcases Nat.lt_trichotomy a.toNat b.toNat with h | h | h
          · left; simp only [if_pos h]
          · simp only [if_neg (by omega : ¬ a.toNat < b.toNat),
              if_neg (by omega : ¬ b.toNat < a.toNat)]
            exact ih bs
          · right; simp only [if_pos h]
    exact fun a b => H a.1.data b.1.data⟩

/-! ## Helper lemmas -/

theorem char_toNat_inj {a b : Char} (h : a.toNat = b.toNat) : a = b :=
  Char.eq_of_val_eq (UInt32.toNat.inj h)

theorem charListLe_antisymm :
    ∀ (x y : List Char), charListLe x y = true → charListLe y x = true → x = y := by
  intro x
  induction x with
  | nil =>
    intro y _ hba
    cases y with
    | nil => rfl
    | cons b bs => simp [charListLe] at hba
  | cons a as ih =>
    intro y hab hba
    cases y with
    | nil => simp [charListLe] at hab
    | cons b bs =>
      simp only [charListLe] at hab hba
      rcases Nat.lt_trichotomy a.toNat b.toNat with h | h | h
      · simp only [if_neg (Nat.lt_asymm h), if_pos h] at hba
        exact Bool.noConfusion hba
      · have hb : a = b := char_toNat_inj h
        subst hb
        simp only [if_neg (by omega : ¬ a.toNat < a.toNat)] at hab hba
        rw [ih bs hab hba]
      · simp only [if_neg (Nat.lt_asymm h), if_pos h] at hab
        exact Bool.noConfusion hab

theorem strLe_antisymm {a b : String} (h1 : strLe a b = true) (h2 : strLe b a = true) :
    a = b := by
  cases a; cases b
  exact congrArg String.mk (charListLe_antisymm _ _ h1 h2)

theorem sortK_perm {β : Type} (l : List (String × β)) : List.Perm (sortK l) l :=
  List.perm_insertionSort keyLe l

theorem sortK_sorted {β : Type} (l : List (String × β)) : List.Sorted keyLe (sortK l) :=
  List.sorted_insertionSort keyLe l

/-- Two key-sorted pair lists that are permutations of each other and have
no duplicate keys are equal. -/
theorem sorted_perm_nodup_eq {β : Type} :
    ∀ (l₁ l₂ : List (String × β)), List.Perm l₁ l₂ → List.Sorted keyLe l₁ →
      List.Sorted keyLe l₂ → (l₁.map Prod.fst).Nodup → l₁ = l₂ := by
  intro l₁
  induction l₁ with
  | nil => intro l₂ hp _ _ _; exact (hp.nil_eq).symm ▸ rfl
  | cons p t ih =>
    intro l₂ hp hs₁ hs₂ hnd
    cases l₂ with
    | nil => exact absurd hp.symm.nil_eq (by simp)
    | cons q u =>
      have hnd₂ : ((q :: u).map Prod.fst).Nodup := (hp.map Prod.fst).nodup_iff.mp hnd
      have hpq : p = q := by
        have hpmem : p ∈ q :: u := hp.subset (List.mem_cons_self p t)
        rcases List.mem_cons.mp hpmem with h | h
        · exact h
        · exfalso
          have hqmem : q ∈ p :: t := hp.symm.subset (List.mem_cons_self q u)
          rcases List.mem_cons.mp hqmem with h2 | h2
          · have hm : p.1 ∈ (u.map Prod.fst) := List.mem_map_of_mem Prod.fst h
            rw [← h2] at hm
            exact (List.nodup_cons.mp hnd₂).1 hm
          · have hle1 : keyLe p q := List.rel_of_sorted_cons hs₁ q h2
            have hle2 : keyLe q p := List.rel_of_sorted_cons hs₂ p h
            have hkeys : p.1 = q.1 := strLe_antisymm hle1 hle2
            have : p.1 ∈ (u.map Prod.fst) := List.mem_map_of_mem Prod.fst h
            rw [hkeys] at this
            exact (List.nodup_cons.mp hnd₂).1 this
      subst hpq
      have ht : List.Perm t u := hp.cons_inv
      have := ih u ht hs₁.of_cons hs₂.of_cons (List.nodup_cons.mp hnd).2
      rw [this]

/-- Sorting by key is insensitive to the input's order when the keys are
distinct. -/
theorem sortK_eq_of_perm_nodup {β : Type} (l₁ l₂ : List (String × β))
    (hp : List.Perm l₁ l₂) (hnd : (l₁.map Prod.fst).Nodup) : sortK l₁ = sortK l₂ := by
  have hperm : List.Perm (sortK l₁) (sortK l₂) :=
    ((sortK_perm l₁).trans hp).trans (sortK_perm l₂).symm
  have hnd₁ : ((sortK l₁).map Prod.fst).Nodup :=
    ((sortK_perm l₁).map Prod.fst).nodup_iff.mpr hnd
  exact sorted_perm_nodup_eq _ _ hperm (sortK_sorted l₁) (sortK_sorted l₂) hnd₁

mutual
theorem goEq_refl : ∀ v, goEq v v = true
  | .null => rfl
  | .bool b => by simp [goEq]
  | .int n => by simp [goEq]
  | .str s => by simp [goEq]
  | .arr xs => by simp [goEq, goEqList_refl xs]
  | .map ps => by simp [goEq, goEqPairs_refl ps]
  | .ptr a v => by simp [goEq, goEq_refl v]
  | .chanV a => by simp [goEq]
theorem goEqList_refl : ∀ xs, goEqList xs xs = true
  | [] => rfl
  | x :: xs => by simp [goEqList, goEq_refl x, goEqList_refl xs]
theorem goEqPairs_refl : ∀ ps, goEqPairs ps ps = true
  | [] => rfl
  | (k, v) :: ps => by simp [goEqPairs, goEq_refl v, goEqPairs_refl ps]
end

mutual
theorem jvEq_refl : ∀ v, jvEq v v = true
  | .null => rfl
  | .bool b => by simp [jvEq]
  | .num n => by simp [jvEq]
  | .str s => by simp [jvEq]
  | .arr xs => by simp [jvEq, jvEqList_refl xs]
  | .obj ps => by simp [jvEq, jvEqPairs_refl ps]
theorem jvEqList_refl : ∀ xs, jvEqList xs xs = true
  | [] => rfl
  | x :: xs => by simp [jvEqList, jvEq_refl x, jvEqList_refl xs]
theorem jvEqPairs_refl : ∀ ps, jvEqPairs ps ps = true
  | [] => rfl
  | (k, v) :: ps => by simp [jvEqPairs, jvEq_refl v, jvEqPairs_refl ps]
end

theorem optJvEq_refl : ∀ o, optJvEq o o = true
  | none => rfl
  | some v => jvEq_refl v

theorem deepEqualGo_refl (v : GoVal) : deepEqualGo v v = true := goEq_refl (canon v)

theorem FailDiff_fst (t : Nat) (d s : String) : (FailDiff t d s).1 = false := by
  unfold FailDiff Fail
  split <;> rfl

theorem FailDiff_len (t : Nat) (d s : String) : (FailDiff t d s).2.length = 1 := by
  unfold FailDiff Fail
  split <;> rfl

theorem marshalPairsEnc_eq (l : List (String × GoVal)) :
    marshalPairsEnc l = l.map (fun p => (p.1, marshalVal p.2)) := by
  induction l with
  | nil => rfl
  | cons p ps ih =>
    cases p with
    | mk k v => simp [marshalPairsEnc, ih]

/-- json.Marshal of a Go map does not depend on the insertion order of its
pairs (keys are emitted sorted; a Go map has no duplicate keys). -/
theorem marshalVal_map_perm (l₁ l₂ : List (String × GoVal)) (hp : List.Perm l₁ l₂)
    (hnd : (l₁.map Prod.fst).Nodup) :
    marshalVal (GoVal.map l₁) = marshalVal (GoVal.map l₂) := by
  have hpm : List.Perm (marshalPairsEnc l₁) (marshalPairsEnc l₂) := by
    rw [marshalPairsEnc_eq, marshalPairsEnc_eq]
    exact hp.map _
  have hkeys : (marshalPairsEnc l₁).map Prod.fst = l₁.map Prod.fst := by
    rw [marshalPairsEnc_eq, List.map_map]
    rfl
  have hsort : sortK (marshalPairsEnc l₁) = sortK (marshalPairsEnc l₂) :=
    sortK_eq_of_perm_nodup _ _ hpm (hkeys ▸ hnd)
  simp only [marshalVal, hsort]

/-! ## Claim theorems -/

/-- C1 (amended): in the assert/assert.go revision, interfaceDiff normalizes
both spew dumps with the cap=/0x replacement passes before diffing, so any
two values whose dumps differ only in such volatile annotations (i.e. whose
dumps normalize identically) are handed to the differ as identical texts.
In the part_000 revision these passes are commented out (see the
counterexample). -/
theorem interfaceDiff_assertgo_normalized_texts_identical
    (expected actual : GoVal)
    (h : normalizeDump (sdump expected) = normalizeDump (sdump actual)) :
    (AssertRev.interfaceDiffTexts expected actual).1 =
      (AssertRev.interfaceDiffTexts expected actual).2 ∧
    AssertRev.interfaceDiff expected actual =
      AssertRev.diff (normalizeDump (sdump expected)) (normalizeDump (sdump actual)) :=
  ⟨h, rfl⟩

/-- C1 witness: two pointers to equal data at different addresses have
dumps that normalize identically, and the assert.go revision hands the
differ identical texts for them. -/
theorem interfaceDiff_assertgo_normalized_texts_identical_witness :
    normalizeDump (sdump (GoVal.ptr 1 (GoVal.int 5))) =
      normalizeDump (sdump (GoVal.ptr 2 (GoVal.int 5))) ∧
    (AssertRev.interfaceDiffTexts (GoVal.ptr 1 (GoVal.int 5)) (GoVal.ptr 2 (GoVal.int 5))).1 =
      (AssertRev.interfaceDiffTexts (GoVal.ptr 1 (GoVal.int 5)) (GoVal.ptr 2 (GoVal.int 5))).2 :=
  ⟨by decide,
   (interfaceDiff_assertgo_normalized_texts_identical
      (GoVal.ptr 1 (GoVal.int 5)) (GoVal.ptr 2 (GoVal.int 5)) (by decide)).1⟩

/-- C1 counterexample: in the part_000 revision, the dumps of two pointer
values that differ only in the volatile address annotation (their
normalized dumps are identical) are handed to the differ unnormalized and
unequal, so the claim's normalization property fails there. -/
theorem interfaceDiff_part000_unnormalized_texts_differ :
    normalizeDump (sdump (GoVal.ptr 1 (GoVal.int 5))) =
      normalizeDump (sdump (GoVal.ptr 2 (GoVal.int 5))) ∧
    (Assert.interfaceDiffTexts (GoVal.ptr 1 (GoVal.int 5)) (GoVal.ptr 2 (GoVal.int 5))).1 ≠
      (Assert.interfaceDiffTexts (GoVal.ptr 1 (GoVal.int 5)) (GoVal.ptr 2 (GoVal.int 5))).2 :=
  ⟨by decide, by decide⟩

/-- C3 (amended): in the part_000 revision, diff appends exactly one
trailing line terminator to each input that lacks one and none to an input
that already ends in one, splits the normalized texts retaining
terminators, and hands difflib a unified-diff configuration with 2 lines
of context and the side labels expected and actual. In the assert.go
revision the inputs are split as they are, without the trailing-terminator
normalization (see the counterexample). -/
theorem diff_part000_appends_newline_and_builds_udiff (e a : String) :
    Assert.diff e a = getUnifiedDiffString (Assert.diffUdiff e a) ∧
    (Assert.diffUdiff e a).FromFile = "expected" ∧
    (Assert.diffUdiff e a).ToFile = "actual" ∧
    (Assert.diffUdiff e a).Context = 2 ∧
    (hasSuffixNl e = false → (Assert.diffUdiff e a).A = splitAfter (e ++ "\n")) ∧
    (hasSuffixNl e = true → (Assert.diffUdiff e a).A = splitAfter e) ∧
    (hasSuffixNl a = false → (Assert.diffUdiff e a).B = splitAfter (a ++ "\n")) ∧
    (hasSuffixNl a = true → (Assert.diffUdiff e a).B = splitAfter a) := by
  refine ⟨rfl, rfl, rfl, rfl, ?_, ?_, ?_, ?_⟩ <;> (intro h; simp [Assert.diffUdiff, h])

/-- C3 witness: a terminator is appended to "a" and not to "b\n". -/
theorem diff_part000_appends_newline_and_builds_udiff_witness :
    (Assert.diffUdiff "a" "b\n").A = splitAfter ("a" ++ "\n") ∧
    (Assert.diffUdiff "a" "b\n").B = splitAfter "b\n" :=
  ⟨(diff_part000_appends_newline_and_builds_udiff "a" "b\n").2.2.2.2.1 (by decide),
   (diff_part000_appends_newline_and_builds_udiff "a" "b\n").2.2.2.2.2.2.2 (by decide)⟩

/-- C3 counterexample: the assert.go revision's diff splits the input "a",
which lacks a trailing terminator, as it is: the line list handed to
difflib is ["a"], not the ["a", ""] that splitting the
terminator-appended text would give. -/
theorem diff_assertgo_missing_newline_append :
    hasSuffixNl "a" = false ∧
    (AssertRev.diffUdiff "a" "b").A = ["a"] ∧
    (AssertRev.diffUdiff "a" "b").A ≠ splitAfter ("a" ++ "\n") :=
  ⟨by decide, by decide, by decide⟩

/-- C5: DeepEqual returns true exactly when the modelled reflect.DeepEqual
holds (in particular it passes with empty sink interaction on any value
compared to itself, map insertion order and pointer addresses
notwithstanding), and on a mismatch it reports exactly one failure with
description "Structs differ" whose diff is built from the two spew dumps. -/
theorem deepEqual_structural_iff_single_failure (t : Nat) :
    (∀ v, Assert.DeepEqual t v v = (true, [])) ∧
    (∀ e a, (Assert.DeepEqual t e a).1 = deepEqualGo e a) ∧
    (∀ e a, deepEqualGo e a = false →
      (Assert.DeepEqual t e a).2 =
        (FailDiff t "Structs differ" (Assert.interfaceDiff e a)).2 ∧
      (Assert.DeepEqual t e a).2.length = 1 ∧
      Assert.interfaceDiff e a = Assert.diff (sdump e) (sdump a)) := by
  refine ⟨fun v => ?_, fun e a => ?_, fun e a hm => ?_⟩
  · simp [Assert.DeepEqual, deepEqualGo_refl]
  · by_cases hd : deepEqualGo e a <;> simp [Assert.DeepEqual, hd, FailDiff_fst]
  · exact ⟨by simp [Assert.DeepEqual, hm], by simp [Assert.DeepEqual, hm, FailDiff_len], rfl⟩

/-- C5 witness: reflexivity at a concrete composite value and the single
"Structs differ" failure at a concrete mismatch. -/
theorem deepEqual_structural_iff_single_failure_witness :
    Assert.DeepEqual 0 (GoVal.map [("a", GoVal.int 1)]) (GoVal.map [("a", GoVal.int 1)]) =
      (true, []) ∧
    (Assert.DeepEqual 0 (GoVal.int 0) (GoVal.int 1)).2 =
      (FailDiff 0 "Structs differ" (Assert.interfaceDiff (GoVal.int 0) (GoVal.int 1))).2 ∧
    (Assert.DeepEqual 0 (GoVal.int 0) (GoVal.int 1)).2.length = 1 :=
  ⟨(deepEqual_structural_iff_single_failure 0).1 (GoVal.map [("a", GoVal.int 1)]),
   ((deepEqual_structural_iff_single_failure 0).2.2 (GoVal.int 0) (GoVal.int 1) (by decide)).1,
   ((deepEqual_structural_iff_single_failure 0).2.2 (GoVal.int 0) (GoVal.int 1) (by decide)).2.1⟩

/-- C6: when the literal expected JSON document does not parse,
MarshalsToJSON fails with the distinct description "Error unmarshaling
expected JSON string", whatever the actual value is; the only other sink
interaction is the marshaling report for the actual value, if any. -/
theorem marshalsToJSON_invalid_expected_distinct_failure
    (t : Nat) (expected : String) (actual : GoVal) (h : parseJSON expected = none) :
    (Assert.MarshalsToJSON t expected actual).1 = false ∧
    (Assert.MarshalsToJSON t expected actual).2 =
      (Assert.marshalJSON t actual).2 ++
        [Event.fail t "Error unmarshaling expected JSON string"] := by
  constructor <;> simp [Assert.MarshalsToJSON, h, Fail]

/-- C6 witness: the unparseable literal of the spec's example. -/
theorem marshalsToJSON_invalid_expected_distinct_failure_witness :
    (Assert.MarshalsToJSON 0 "\x7bnot json" GoVal.null).1 = false ∧
    (Assert.MarshalsToJSON 0 "\x7bnot json" GoVal.null).2 =
      (Assert.marshalJSON 0 GoVal.null).2 ++
        [Event.fail 0 "Error unmarshaling expected JSON string"] :=
  marshalsToJSON_invalid_expected_distinct_failure 0 "\x7bnot json" GoVal.null (by rfl)

/-- C8: DeepEqualJSON passes on two map values holding the same key/value
pairs in different insertion orders: both marshal to the same sorted-key
canonical JSON, and the comparison is between the decoded forms of those
encodings. -/
theorem deepEqualJSON_map_insertion_order_irrelevant
    (t : Nat) (l₁ l₂ : List (String × GoVal)) (hp : List.Perm l₁ l₂)
    (hnd : (l₁.map Prod.fst).Nodup) :
    (Assert.DeepEqualJSON t (GoVal.map l₁) (GoVal.map l₂)).1 = true := by
  have hm : marshalVal (GoVal.map l₁) = marshalVal (GoVal.map l₂) :=
    marshalVal_map_perm _ _ hp hnd
  have hjm : Assert.marshalJSON t (GoVal.map l₁) = Assert.marshalJSON t (GoVal.map l₂) := by
    unfold Assert.marshalJSON
    rw [hm]
  simp [Assert.DeepEqualJSON, hjm, optJvEq_refl]

/-- C8 witness: the spec's example pair of two-key maps. -/
theorem deepEqualJSON_map_insertion_order_irrelevant_witness :
    (Assert.DeepEqualJSON 0 (GoVal.map [("a", GoVal.int 1), ("b", GoVal.int 2)])
      (GoVal.map [("b", GoVal.int 2), ("a", GoVal.int 1)])).1 = true :=
  deepEqualJSON_map_insertion_order_irrelevant 0
    [("a", GoVal.int 1), ("b", GoVal.int 2)] [("b", GoVal.int 2), ("a", GoVal.int 1)]
    (List.Perm.swap ("b", GoVal.int 2) ("a", GoVal.int 1) [])
    (by decide)

/-- C2 counterexample: with an unmarshalable value on both sides,
DeepEqualJSON reports the marshaling failure (twice) but returns true, not
false: both sides decode to the nil interface value, which compare as
deeply equal. -/
theorem deepEqualJSON_returns_true_despite_marshal_failure :
    marshalVal (GoVal.chanV 0) = none ∧
    (Assert.DeepEqualJSON 0 (GoVal.chanV 0) (GoVal.chanV 0)).1 = true ∧
    (Assert.DeepEqualJSON 0 (GoVal.chanV 0) (GoVal.chanV 0)).2 =
      [Event.fail 0 ("Error marshaling JSON: " ++ jsonChanErr ++ "\n"),
       Event.fail 0 ("Error marshaling JSON: " ++ jsonChanErr ++ "\n")] :=
  ⟨rfl, by decide, by decide⟩

/-- C2 (amended): for every unmarshalable value, in either the expected or
the actual position, DeepEqualJSON reports a failure whose message embeds
the marshaling error text, and then continues with the nil decoded value
for that side: it returns false exactly when the other side's decoded form
is non-nil (in particular it returns true when both sides fail to
marshal). -/
theorem deepEqualJSON_marshal_failure_reporting (t : Nat) (bad other : GoVal)
    (hb : marshalVal bad = none) :
    ((Event.fail t ("Error marshaling JSON: " ++ jsonChanErr ++ "\n")) ∈
        (Assert.DeepEqualJSON t bad other).2 ∧
      ((Assert.DeepEqualJSON t bad other).1 = false ↔
        decodeVar ((marshalVal other).getD "") ≠ none)) ∧
    ((Event.fail t ("Error marshaling JSON: " ++ jsonChanErr ++ "\n")) ∈
        (Assert.DeepEqualJSON t other bad).2 ∧
      ((Assert.DeepEqualJSON t other bad).1 = false ↔
        decodeVar ((marshalVal other).getD "") ≠ none)) := by
  have h0 : decodeVar "" = none := rfl
  have hm1 : Assert.marshalJSON t bad =
      ("", [Event.fail t ("Error marshaling JSON: " ++ jsonChanErr ++ "\n")]) := by
    simp [Assert.marshalJSON, hb, Fail]
  cases hv : marshalVal other with
  | none =>
    have hm2 : Assert.marshalJSON t other =
        ("", [Event.fail t ("Error marshaling JSON: " ++ jsonChanErr ++ "\n")]) := by
      simp [Assert.marshalJSON, hv, Fail]
    refine ⟨⟨?_, ?_⟩, ⟨?_, ?_⟩⟩ <;>
      simp [Assert.DeepEqualJSON, hm1, hm2, h0, optJvEq, hv]
  | some s =>
    have hm2 : Assert.marshalJSON t other = (s, []) := by
      simp [Assert.marshalJSON, hv]
    cases ha : decodeVar s with
    | none =>
      refine ⟨⟨?_, ?_⟩, ⟨?_, ?_⟩⟩ <;>
        simp [Assert.DeepEqualJSON, hm1, hm2, h0, ha, optJvEq, hv]
    | some jv =>
      refine ⟨⟨?_, ?_⟩, ⟨?_, ?_⟩⟩ <;>
        simp [Assert.DeepEqualJSON, hm1, hm2, h0, ha, optJvEq, hv, FailDiff_fst]

/-- C2 witness: a slice containing a channel (an unmarshalable composite)
reports the marshaling failure in both positions against a marshalable
other side, and the check returns false there since the other side decodes
to a non-nil value. -/
theorem deepEqualJSON_marshal_failure_reporting_witness :
    marshalVal (GoVal.arr [GoVal.chanV 0]) = none ∧
    (Event.fail 0 ("Error marshaling JSON: " ++ jsonChanErr ++ "\n")) ∈
      (Assert.DeepEqualJSON 0 (GoVal.arr [GoVal.chanV 0]) (GoVal.int 1)).2 ∧
    ((Assert.DeepEqualJSON 0 (GoVal.arr [GoVal.chanV 0]) (GoVal.int 1)).1 = false ↔
      decodeVar ((marshalVal (GoVal.int 1)).getD "") ≠ none) ∧
    (Event.fail 0 ("Error marshaling JSON: " ++ jsonChanErr ++ "\n")) ∈
      (Assert.DeepEqualJSON 0 (GoVal.int 1) (GoVal.arr [GoVal.chanV 0])).2 ∧
    ((Assert.DeepEqualJSON 0 (GoVal.int 1) (GoVal.arr [GoVal.chanV 0])).1 = false ↔
      decodeVar ((marshalVal (GoVal.int 1)).getD "") ≠ none) := by
  have h := deepEqualJSON_marshal_failure_reporting 0
    (GoVal.arr [GoVal.chanV 0]) (GoVal.int 1) (by rfl)
  exact ⟨rfl, h.1.1, h.1.2, h.2.1, h.2.2⟩

/-- C4: HTMLEqual aborts (one descriptive Errorf, then FailNow) whenever
input normalization fails on either side, whether because the input is of
an unaccepted kind or because an accepted kind fails to normalize; it does
not report an ordinary mismatch and does not return false. -/
theorem htmlEqual_aborts_on_unnormalizable_input
    (t : Nat) (e a : HTMLInput) (m : String) :
    (Assert.toHTMLNode e = NodeRes.err m →
      Assert.HTMLEqual t e a =
        (Outcome.halted t, [Event.invalidDoc t ("invalid expected document: " ++ m)])) ∧
    (∀ d, Assert.toHTMLNode e = NodeRes.ok d → Assert.toHTMLNode a = NodeRes.err m →
      Assert.HTMLEqual t e a =
        (Outcome.halted t, [Event.invalidDoc t ("invalid actual document: " ++ m)])) := by
  constructor
  · intro h
    simp [Assert.HTMLEqual, h]
  · intro d h1 h2
    simp [Assert.HTMLEqual, h1, h2]

/-- C4 witness: a selection whose outer-markup extraction failed (an
accepted kind that does not normalize) aborts on the expected side, and
the untyped nil (an unaccepted kind) aborts on the actual side. -/
theorem htmlEqual_aborts_on_unnormalizable_input_witness :
    Assert.HTMLEqual 0 (HTMLInput.selection (SelRes.selErr "boom")) (HTMLInput.str "<p>") =
      (Outcome.halted 0,
       [Event.invalidDoc 0 "invalid expected document: failed to get outer html: boom"]) ∧
    Assert.HTMLEqual 0 (HTMLInput.str "<p>") HTMLInput.nilInterface =
      (Outcome.halted 0,
       [Event.invalidDoc 0 "invalid actual document: unknown type: <nil>"]) :=
  ⟨(htmlEqual_aborts_on_unnormalizable_input 0
      (HTMLInput.selection (SelRes.selErr "boom")) (HTMLInput.str "<p>")
      "failed to get outer html: boom").1 (by rfl),
   (htmlEqual_aborts_on_unnormalizable_input 0
      (HTMLInput.str "<p>") HTMLInput.nilInterface
      "unknown type: <nil>").2 (some (parseHTML "<p>")) (by rfl) (by rfl)⟩

/-- C7 counterexample: a require-form DeepEqualJSON whose expected value
cannot be marshaled reports two failures (the marshaling error and the
mismatch) before halting, not exactly one. -/
theorem require_deepEqualJSON_double_report_before_halt :
    (Require.DeepEqualJSON 0 (GoVal.chanV 0) (GoVal.int 1)).1 = Outcome.halted 0 ∧
    (Require.DeepEqualJSON 0 (GoVal.chanV 0) (GoVal.int 1)).2.length = 2 :=
  ⟨by decide, by decide⟩

/-- C7 (amended): when the underlying assert-form check returns false, the
require form halts through the sink's abort operation after the failures
have been reported, and never returns control: exactly one failure for
DeepEqual, LinesEqual and HTMLEqual, and at least one for the JSON checks
(which may add marshaling reports before the mismatch report). When the
underlying check returns true, the require form returns normally without
aborting and without reporting anything beyond what the underlying check
itself reported, which is nothing for the non-JSON checks. -/
theorem require_forms_report_then_halt
    (t : Nat) (e a je ja mv : GoVal) (ms s1 s2 : String) (h1 h2 : HTMLInput) :
    ((Assert.DeepEqual t e a).1 = false →
      Require.DeepEqual t e a = (Outcome.halted t, (Assert.DeepEqual t e a).2) ∧
      (Assert.DeepEqual t e a).2.length = 1) ∧
    ((Assert.DeepEqual t e a).1 = true →
      Require.DeepEqual t e a = (Outcome.ret (), (Assert.DeepEqual t e a).2) ∧
      (Assert.DeepEqual t e a).2 = []) ∧
    ((Assert.DeepEqualJSON t je ja).1 = false →
      Require.DeepEqualJSON t je ja = (Outcome.halted t, (Assert.DeepEqualJSON t je ja).2) ∧
      1 ≤ (Assert.DeepEqualJSON t je ja).2.length) ∧
    ((Assert.DeepEqualJSON t je ja).1 = true →
      Require.DeepEqualJSON t je ja = (Outcome.ret (), (Assert.DeepEqualJSON t je ja).2)) ∧
    ((Assert.MarshalsToJSON t ms mv).1 = false →
      Require.MarshalsToJSON t ms mv = (Outcome.halted t, (Assert.MarshalsToJSON t ms mv).2) ∧
      1 ≤ (Assert.MarshalsToJSON t ms mv).2.length) ∧
    ((Assert.MarshalsToJSON t ms mv).1 = true →
      Require.MarshalsToJSON t ms mv = (Outcome.ret (), (Assert.MarshalsToJSON t ms mv).2)) ∧
    ((Assert.LinesEqual t s1 s2).1 = false →
      Require.LinesEqual t s1 s2 = (Outcome.halted t, (Assert.LinesEqual t s1 s2).2) ∧
      (Assert.LinesEqual t s1 s2).2.length = 1) ∧
    ((Assert.LinesEqual t s1 s2).1 = true →
      Require.LinesEqual t s1 s2 = (Outcome.ret (), (Assert.LinesEqual t s1 s2).2) ∧
      (Assert.LinesEqual t s1 s2).2 = []) ∧
    ((Assert.HTMLEqual t h1 h2).1 = Outcome.ret false →
      Require.HTMLEqual t h1 h2 = (Outcome.halted t, (Assert.HTMLEqual t h1 h2).2) ∧
      (Assert.HTMLEqual t h1 h2).2.length = 1) ∧
    ((Assert.HTMLEqual t h1 h2).1 = Outcome.ret true →
      Require.HTMLEqual t h1 h2 = (Outcome.ret (), (Assert.HTMLEqual t h1 h2).2) ∧
      (Assert.HTMLEqual t h1 h2).2 = []) := by
  refine ⟨fun h => ⟨?_, ?_⟩, fun h => ⟨?_, ?_⟩, fun h => ⟨?_, ?_⟩, fun h => ?_,
    fun h => ⟨?_, ?_⟩, fun h => ?_, fun h => ⟨?_, ?_⟩, fun h => ⟨?_, ?_⟩,
    fun h => ⟨?_, ?_⟩, fun h => ⟨?_, ?_⟩⟩
  · simp [Require.DeepEqual, h]
  · revert h
    by_cases hd : deepEqualGo e a <;> simp [Assert.DeepEqual, hd, FailDiff_len]
  · simp [Require.DeepEqual, h]
  · revert h
    by_cases hd : deepEqualGo e a <;> simp [Assert.DeepEqual, hd, FailDiff_fst]
  · simp [Require.DeepEqualJSON, h]
  · revert h
    by_cases hq : optJvEq (decodeVar (Assert.marshalJSON t je).1)
        (decodeVar (Assert.marshalJSON t ja).1)
    · simp [Assert.DeepEqualJSON, hq]
    · simp [Assert.DeepEqualJSON, hq, FailDiff_len]
      intro _
      omega
  · simp [Require.DeepEqualJSON, h]
  · simp [Require.MarshalsToJSON, h]
  · revert h
    cases hp : parseJSON ms with
    | none => simp [Assert.MarshalsToJSON, hp, Fail]
    | some ev =>
      by_cases hq : optJvEq (jvVar ev) (decodeVar (Assert.marshalJSON t mv).1) <;>
        simp [Assert.MarshalsToJSON, hp, hq, FailDiff_len]
  · simp [Require.MarshalsToJSON, h]
  · simp [Require.LinesEqual, h]
  · revert h
    by_cases hs : s1 = s2 <;> simp [Assert.LinesEqual, hs, FailDiff_len]
  · simp [Require.LinesEqual, h]
  · revert h
    by_cases hs : s1 = s2 <;> simp [Assert.LinesEqual, hs, FailDiff_fst]
  · rcases hA : Assert.HTMLEqual t h1 h2 with ⟨o, evs⟩
    rw [hA] at h
    simp at h
    subst h
    simp [Require.HTMLEqual, hA]
  · revert h
    rcases he : Assert.toHTMLNode h1 with d | m
    · rcases ha2 : Assert.toHTMLNode h2 with d2 | m2
      · by_cases hq : d = d2
        · simp [Assert.HTMLEqual, he, ha2, hq]
        · simp [Assert.HTMLEqual, he, ha2, hq, FailDiff_fst, FailDiff_len]
      · simp [Assert.HTMLEqual, he, ha2]
    · simp [Assert.HTMLEqual, he]
  · rcases hA : Assert.HTMLEqual t h1 h2 with ⟨o, evs⟩
    rw [hA] at h
    simp at h
    subst h
    simp [Require.HTMLEqual, hA]
  · revert h
    rcases he : Assert.toHTMLNode h1 with d | m
    · rcases ha2 : Assert.toHTMLNode h2 with d2 | m2
      · by_cases hq : d = d2
        · simp [Assert.HTMLEqual, he, ha2, hq]
        · simp [Assert.HTMLEqual, he, ha2, hq, FailDiff_fst]
      · simp [Assert.HTMLEqual, he, ha2]
    · simp [Assert.HTMLEqual, he]

/-- C7 witness: a concrete failing DeepEqual halts with exactly one report,
and a concrete passing LinesEqual returns normally with no report. -/
theorem require_forms_report_then_halt_witness :
    Require.DeepEqual 0 (GoVal.int 0) (GoVal.int 1) =
      (Outcome.halted 0, (Assert.DeepEqual 0 (GoVal.int 0) (GoVal.int 1)).2) ∧
    (Assert.DeepEqual 0 (GoVal.int 0) (GoVal.int 1)).2.length = 1 ∧
    Require.LinesEqual 0 "x" "x" = (Outcome.ret (), (Assert.LinesEqual 0 "x" "x").2) ∧
    (Assert.LinesEqual 0 "x" "x").2 = [] := by
  have h := require_forms_report_then_halt 0 (GoVal.int 0) (GoVal.int 1)
    GoVal.null GoVal.null GoVal.null "null" "x" "x"
    (HTMLInput.str "<p>") (HTMLInput.str "<p>")
  exact ⟨(h.1 (by decide)).1, (h.1 (by decide)).2,
    (h.2.2.2.2.2.2.2.1 (by decide)).1, (h.2.2.2.2.2.2.2.1 (by decide)).2⟩

/-- C9: every bound-method form forwards to the corresponding free function
applied to the stored failure sink, so the two forms return the same result
and produce the same sink interactions; the assert.go revision's DeepEqual
method even ignores its explicit sink argument in favour of the stored
one. -/
theorem method_forms_match_free_functions
    (a1 : Assert.Assertions) (a2 : AssertRev.Assertions) (a3 : Require.Assertions)
    (tArg : Nat) (e x : GoVal) (eb s1 s2 : String) (h1 h2 : HTMLInput) :
    a1.DeepEqual e x = Assert.DeepEqual a1.t e x ∧
    a1.DeepEqualJSON e x = Assert.DeepEqualJSON a1.t e x ∧
    a1.MarshalsToJSON eb x = Assert.MarshalsToJSON a1.t eb x ∧
    a1.LinesEqual s1 s2 = Assert.LinesEqual a1.t s1 s2 ∧
    a2.DeepEqual tArg e x = AssertRev.DeepEqual a2.t e x ∧
    a3.DeepEqual e x = Require.DeepEqual a3.t e x ∧
    a3.DeepEqualJSON e x = Require.DeepEqualJSON a3.t e x ∧
    a3.MarshalsToJSON eb x = Require.MarshalsToJSON a3.t eb x ∧
    a3.LinesEqual s1 s2 = Require.LinesEqual a3.t s1 s2 ∧
    a3.HTMLEqual h1 h2 = Require.HTMLEqual a3.t h1 h2 :=
  ⟨rfl, rfl, rfl, rfl, rfl, rfl, rfl, rfl, rfl, rfl⟩

/-- C10: a typed-nil document-tree pointer is accepted by toHTMLNode and
returned unchanged, so HTMLEqual on two typed-nil pointers returns true
without reporting or aborting; the untyped nil interface is an
unrecognized input kind and aborts the test. -/
theorem htmlEqual_typed_nil_vs_untyped_nil (t : Nat) (a : HTMLInput) :
    Assert.toHTMLNode (HTMLInput.nodePtr none) = NodeRes.ok none ∧
    Assert.HTMLEqual t (HTMLInput.nodePtr none) (HTMLInput.nodePtr none) =
      (Outcome.ret true, []) ∧
    Assert.toHTMLNode HTMLInput.nilInterface = NodeRes.err "unknown type: <nil>" ∧
    (Assert.HTMLEqual t HTMLInput.nilInterface a).1 = Outcome.halted t :=
  ⟨rfl, rfl, rfl, rfl⟩
